import Mathlib

/-!
Verification development for the skylinex runtime hooking library.

The definitions below are shallow embeddings of the Rust sources:

* `skyline-macro/src/hooks.rs` — hook strategy selection (`should_be_jit_hook`),
  the generated `original!` helpers (`push_original_utils`);
* `skyline-macro/src/hooks/jit_hooks.rs` — generated install/enable/disable code
  for the direct-patch (JIT) strategy;
* `skyline-macro/src/hooks/symbol_hooks.rs` — generated enable/disable code for
  the precompiled-stub (symbol) strategy;
* `src/hooks/backtrace.rs` — the frame-pointer stack unwinder (`Backtrace::new`);
* `src/rtld/mod.rs` — module/symbol registry (`find_symbol_for_address`);
* `src/hooks/registers.rs` — vector/FPU register lane accessors.

Machine integers are modelled as `Nat` with explicit `% 2 ^ w` wherever wrap or
truncation matters; raw pointers are modelled as `Nat` with `0` for null; process
memory is a function from addresses to values.
-/

/-! ## Hook attribute model (skyline-macro/src/attrs.rs)

`HookAttributes` mirrors the parsed macro attributes: an optional `module`
argument, the hooking style key/value (`replace = …` parses to `Symbol`,
`offset = …` parses to `Offset`), and the optional `force_jit` flag
(`force_jit : Bool` models `Option<kw::force_jit>::is_some`).

The target expression (`syn::Expr`) is abstracted to the four constructor
classes that `should_be_jit_hook` distinguishes: a string literal, any other
literal, a path, and any other expression. -/

inductive HookStyle
  | Symbol
  | Offset
deriving DecidableEq, Repr

inductive HookExpr
  | litStr (s : String)
  | litOther
  | path
  | exprOther
deriving DecidableEq, Repr

inductive KnownModule
  | Rtld
  | Main
  | Skyline
  | Sdk
deriving DecidableEq, Repr

inductive ModuleArg
  | byKnown (k : KnownModule)
  | byName (name : String)
deriving DecidableEq, Repr

structure HookStyleKV where
  key : HookStyle
  value : HookExpr
deriving DecidableEq, Repr

structure HookAttributes where
  module : Option ModuleArg
  style : HookStyleKV
  force_jit : Bool
deriving DecidableEq, Repr

/-- A compiler diagnostic emitted by the proc macro (severity only). -/
inductive Diagnostic
  | warning
  | error
deriving DecidableEq, Repr

/-- The two installation strategies of the hook protocol. -/
inductive Strategy
  | directPatch
  | precompiledStub
deriving DecidableEq, Repr

/-! ## Strategy selection (skyline-macro/src/hooks.rs, `should_be_jit_hook`) -/

/-- The `try_emit_warning` closure in `should_be_jit_hook`: if `force_jit` is
present, emit the "unnecessary argument" warning diagnostic. -/
def try_emit_warning (attrs : HookAttributes) : Option Diagnostic :=
  if attrs.force_jit then some Diagnostic.warning else none

/-- Embedding of `should_be_jit_hook`: returns the boolean result together with
the diagnostic the function emits (the source emits at most one).

Source logic: a non-`replace` style requires JIT (warning if `force_jit`);
under `replace`, a string literal forces a symbol hook (error if `force_jit`),
any other literal requires JIT (warning if `force_jit`), a path is JIT exactly
when `force_jit` is given, and any other expression requires JIT (warning if
`force_jit`). -/
def should_be_jit_hook (attrs : HookAttributes) : Bool × Option Diagnostic :=
  match attrs.style.key with
  | HookStyle.Offset => (true, try_emit_warning attrs)
  | HookStyle.Symbol =>
    match attrs.style.value with
    | HookExpr.litStr _ => (false, if attrs.force_jit then some Diagnostic.error else none)
    | HookExpr.litOther => (true, try_emit_warning attrs)
    | HookExpr.path => (attrs.force_jit, none)
    | HookExpr.exprOther => (true, try_emit_warning attrs)

/-- The strategy dispatch in `make_hook_internal`:
`let is_symbol_hook = !should_be_jit_hook(&attrs)` selects between
`symbol_hooks::make_symbol_hook` (precompiled stub) and
`jit_hooks::make_jit_hook` (direct patch). -/
def chosenStrategy (attrs : HookAttributes) : Strategy :=
  if (should_be_jit_hook attrs).fst then Strategy.directPatch else Strategy.precompiledStub

/-- The configurations in which the direct-patch (JIT) strategy is already
required by `should_be_jit_hook` independently of `force_jit`: a non-`replace`
style, a non-string literal target, or a target expression that is neither a
literal nor a path. -/
def jitRequired (attrs : HookAttributes) : Prop :=
  attrs.style.key = HookStyle.Offset ∨
    (attrs.style.key = HookStyle.Symbol ∧
      (attrs.style.value = HookExpr.litOther ∨ attrs.style.value = HookExpr.exprOther))

/-- C1: a string-literal target under `replace` always selects the
precompiled-stub strategy, `force_jit` on such a hook emits a hard compile
error, and `force_jit` in any configuration where JIT is already required
emits only a redundancy warning. -/
theorem strategy_string_literal_forces_stub :
    (∀ attrs : HookAttributes, ∀ s : String,
      attrs.style.key = HookStyle.Symbol → attrs.style.value = HookExpr.litStr s →
        chosenStrategy attrs = Strategy.precompiledStub ∧
          (attrs.force_jit = true →
            (should_be_jit_hook attrs).snd = some Diagnostic.error)) ∧
    (∀ attrs : HookAttributes, attrs.force_jit = true → jitRequired attrs →
      chosenStrategy attrs = Strategy.directPatch ∧
        (should_be_jit_hook attrs).snd = some Diagnostic.warning) := by
  constructor
  · intro attrs s hkey hval
    constructor
    · simp [chosenStrategy, should_be_jit_hook, hkey, hval]
    · intro hforce
      simp [should_be_jit_hook, hkey, hval, hforce]
  · intro attrs hforce hreq
    rcases hreq with hoff | ⟨hsym, hlit | hother⟩
    · constructor
      · simp [chosenStrategy, should_be_jit_hook, hoff]
      · simp [should_be_jit_hook, hoff, try_emit_warning, hforce]
    · constructor
      · simp [chosenStrategy, should_be_jit_hook, hsym, hlit]
      · simp [should_be_jit_hook, hsym, hlit, try_emit_warning, hforce]
    · constructor
      · simp [chosenStrategy, should_be_jit_hook, hsym, hother]
      · simp [should_be_jit_hook, hsym, hother, try_emit_warning, hforce]

/-- Witness for C1 at concrete attribute sets: `replace = "some_symbol", force_jit`
is a stub hook with an error diagnostic, and `offset = 0x1234, force_jit`
(JIT required) warns. -/
theorem strategy_string_literal_forces_stub_witness :
    chosenStrategy ⟨none, ⟨HookStyle.Symbol, HookExpr.litStr "some_symbol"⟩, true⟩ =
        Strategy.precompiledStub ∧
      (should_be_jit_hook ⟨none, ⟨HookStyle.Symbol, HookExpr.litStr "some_symbol"⟩, true⟩).snd =
        some Diagnostic.error ∧
      chosenStrategy ⟨none, ⟨HookStyle.Offset, HookExpr.litOther⟩, true⟩ =
        Strategy.directPatch ∧
      (should_be_jit_hook ⟨none, ⟨HookStyle.Offset, HookExpr.litOther⟩, true⟩).snd =
        some Diagnostic.warning := by
  have h1 := strategy_string_literal_forces_stub.1
    ⟨none, ⟨HookStyle.Symbol, HookExpr.litStr "some_symbol"⟩, true⟩ "some_symbol" rfl rfl
  have h2 := strategy_string_literal_forces_stub.2
    ⟨none, ⟨HookStyle.Offset, HookExpr.litOther⟩, true⟩ rfl (Or.inl rfl)
  exact ⟨h1.1, h1.2 rfl, h2.1, h2.2⟩

/-- The attribute set `replace = <non-string literal>` (for example
`replace = 0x1234`) without `force_jit`, the configuration claim C6 is about. -/
def bareLiteralAttrs : HookAttributes :=
  ⟨none, ⟨HookStyle.Symbol, HookExpr.litOther⟩, false⟩

/-- C6 counterexample: a bare non-string literal under `replace` selects the
direct-patch (JIT) strategy, not the precompiled-stub strategy as claimed. -/
theorem bare_literal_selects_direct_patch_counterexample :
    chosenStrategy bareLiteralAttrs = Strategy.directPatch ∧
      Strategy.directPatch ≠ Strategy.precompiledStub := by
  exact ⟨rfl, by decide⟩

/-- C6 amended: a bare non-string literal target under `replace` selects the
direct-patch (JIT) strategy, and a `force_jit` hint on it is accepted without
error, emitting only the superfluous-argument warning. -/
theorem bare_literal_strategy (attrs : HookAttributes)
    (hkey : attrs.style.key = HookStyle.Symbol)
    (hval : attrs.style.value = HookExpr.litOther) :
    chosenStrategy attrs = Strategy.directPatch ∧
      (attrs.force_jit = true →
        (should_be_jit_hook attrs).snd = some Diagnostic.warning) ∧
      (should_be_jit_hook attrs).snd ≠ some Diagnostic.error := by
  refine ⟨?_, ?_, ?_⟩
  · simp [chosenStrategy, should_be_jit_hook, hkey, hval]
  · intro hforce
    simp [should_be_jit_hook, hkey, hval, try_emit_warning, hforce]
  · simp only [should_be_jit_hook, hkey, hval, try_emit_warning]
    cases h : attrs.force_jit <;> simp

/-- Witness for the amended C6 at `replace = 0x1234, force_jit`. -/
theorem bare_literal_strategy_witness :
    chosenStrategy ⟨none, ⟨HookStyle.Symbol, HookExpr.litOther⟩, true⟩ =
        Strategy.directPatch ∧
      (should_be_jit_hook ⟨none, ⟨HookStyle.Symbol, HookExpr.litOther⟩, true⟩).snd =
        some Diagnostic.warning := by
  have h := bare_literal_strategy ⟨none, ⟨HookStyle.Symbol, HookExpr.litOther⟩, true⟩ rfl rfl
  exact ⟨h.1, h.2.1 rfl⟩

/-! ## Stack unwinder (src/hooks/backtrace.rs)

Pointers are `Nat` (0 = null); process memory is `mem : Nat → StackFrame`,
giving the `StackFrame` stored at each non-null frame-pointer address.

The Rust `Backtrace` stores entries in a fixed `[Option<Result<..>>; 33]`
array, writing sequentially at index `count` starting from 0.  We model the
array as the list of written entries; a write is guarded by the array bound,
and a write at index ≥ 33 (which panics in Rust with an index-out-of-bounds)
is modelled as the `none` outcome of `pushEntry`. -/

structure StackFrame where
  previous_frame : Nat
  return_address : Nat
deriving DecidableEq, Repr

inductive BacktraceError
  | InitialFPNull
  | RecursiveFramePointer
  | BacktraceLimitReached
deriving DecidableEq, Repr

/-- `BacktraceEntry`: the frame-pointer value together with the `StackFrame`
loaded from it (`BacktraceEntry::new` dereferences the pointer). -/
structure BTEntry where
  ptr : Nat
  frame : StackFrame
deriving DecidableEq, Repr

deriving instance DecidableEq for Except

/-- One slot of the backtrace array: `Result<BacktraceEntry, BacktraceError>`. -/
abbrev BTSlot := Except BacktraceError BTEntry

/-- Write `v` at the next index of the 33-slot entry array.  The Rust
`entries[count] = v` with `count ≥ 33` is an out-of-bounds panic, modelled as
`none`. -/
def pushEntry (entries : List BTSlot) (v : BTSlot) : Option (List BTSlot) :=
  if entries.length < 33 then some (entries ++ [v]) else none

/-- The `while limit > 0` loop of `Backtrace::new`.  Arguments mirror the Rust
locals: `prev_fp`, `current_fp`, the remaining `limit`, and the entries written
so far (`count` is `entries.length`).  Returns the entries and the remaining
limit at loop exit, or `none` for the out-of-bounds panic. -/
def btLoop (mem : Nat → StackFrame) :
    Nat → Nat → Nat → List BTSlot → Option (List BTSlot × Nat)
  | _, _, 0, entries => some (entries, 0)
  | prev_fp, current_fp, fuel + 1, entries =>
    if current_fp = 0 then
      some (entries, fuel + 1)
    else if prev_fp = current_fp then
      match pushEntry entries (Except.error BacktraceError.RecursiveFramePointer) with
      | none => none
      | some entries => some (entries, fuel + 1)
    else
      let frame := mem current_fp
      match pushEntry entries (Except.ok ⟨current_fp, frame⟩) with
      | none => none
      | some entries => btLoop mem current_fp frame.previous_frame fuel entries

structure Backtrace where
  current_frame : Option BTEntry
  current_lr : Nat
  backtrace : List BTSlot
deriving DecidableEq, Repr

/-- Outcome of `Backtrace::new`: an `Ok(Backtrace)`, the `Err(InitialFPNull)`
early return, or the index-out-of-bounds panic of the fixed 33-slot array. -/
inductive NewResult
  | ok (bt : Backtrace)
  | initialFPNull
  | indexOutOfBounds
deriving DecidableEq, Repr

/-- Embedding of `Backtrace::new(current_fp, current_lr, limit)`. -/
def Backtrace.new (mem : Nat → StackFrame)
    (current_fp current_lr limit : Nat) : NewResult :=
  if current_fp = 0 then NewResult.initialFPNull
  else
    let limit := max limit 32
    let current_frame := mem current_fp
    let startState : Option BTEntry × Nat × Nat :=
      if current_frame.return_address ≠ current_lr then
        (none, 0, current_fp)
      else
        (some ⟨current_fp, current_frame⟩, current_fp, current_frame.previous_frame)
    match btLoop mem startState.2.1 startState.2.2 (limit - 1) [] with
    | none => NewResult.indexOutOfBounds
    | some (entries, remaining) =>
      if remaining = 0 then
        match pushEntry entries (Except.error BacktraceError.BacktraceLimitReached) with
        | none => NewResult.indexOutOfBounds
        | some entries => NewResult.ok ⟨startState.1, current_lr, entries⟩
      else NewResult.ok ⟨startState.1, current_lr, entries⟩

/-- Whether a `Backtrace::new` call returned `Ok`. -/
def NewResult.isOkB : NewResult → Bool
  | NewResult.ok _ => true
  | _ => false

/-- The entry array of an `Ok` result (empty for failures). -/
def NewResult.entriesOf : NewResult → List BTSlot
  | NewResult.ok bt => bt.backtrace
  | _ => []

/-- Number of resolved (non-error) entries in a backtrace array. -/
def resolvedCount (entries : List BTSlot) : Nat :=
  (entries.filter (fun e => match e with | Except.ok _ => true | _ => false)).length

/-- Number of error entries in a backtrace array. -/
def errorCount (entries : List BTSlot) : Nat :=
  (entries.filter (fun e => match e with | Except.error _ => true | _ => false)).length

/-- C4: the effective traversal limit of `Backtrace::new` is
`max limit 32` — calling it with any limit is the same as calling it with the
limit clamped up to the floor of 32. -/
theorem backtrace_limit_clamped (mem : Nat → StackFrame)
    (current_fp current_lr limit : Nat) :
    Backtrace.new mem current_fp current_lr limit =
      Backtrace.new mem current_fp current_lr (max limit 32) := by
  simp only [Backtrace.new, max_assoc, max_self]

/-! ### Step lemmas for the unwinder loop -/

/-- A null frame pointer ends the walk without an error. -/
theorem btLoop_null (mem : Nat → StackFrame) (prev_fp fuel : Nat)
    (entries : List BTSlot) :
    btLoop mem prev_fp 0 (fuel + 1) entries = some (entries, fuel + 1) := by
  simp [btLoop]

/-- A frame pointer equal to the preceding one emits `RecursiveFramePointer`
and stops. -/
theorem btLoop_recursive (mem : Nat → StackFrame) (prev_fp current_fp fuel : Nat)
    (entries : List BTSlot) (hcfp : current_fp ≠ 0) (heq : prev_fp = current_fp)
    (hlen : entries.length < 33) :
    btLoop mem prev_fp current_fp (fuel + 1) entries =
      some (entries ++ [Except.error BacktraceError.RecursiveFramePointer], fuel + 1) := by
  simp [btLoop, pushEntry, hcfp, heq, hlen]

/-- A regular step: emit a resolved entry and advance along the chain. -/
theorem btLoop_step (mem : Nat → StackFrame) (prev_fp current_fp fuel : Nat)
    (entries : List BTSlot) (hcfp : current_fp ≠ 0) (hne : prev_fp ≠ current_fp)
    (hlen : entries.length < 33) :
    btLoop mem prev_fp current_fp (fuel + 1) entries =
      btLoop mem current_fp (mem current_fp).previous_frame fuel
        (entries ++ [(Except.ok ⟨current_fp, mem current_fp⟩ : BTSlot)]) := by
  simp [btLoop, pushEntry, hcfp, hne, hlen]

/-- On a valid chain (never null, never self-referential), the loop performs
exactly `fuel` resolved steps and exits with the budget exhausted, provided the
writes stay inside the 33-slot array. -/
theorem btLoop_valid_chain (mem : Nat → StackFrame)
    (hvalid : ∀ a, a ≠ 0 → (mem a).previous_frame ≠ 0 ∧ (mem a).previous_frame ≠ a) :
    ∀ (fuel prev_fp current_fp : Nat) (entries : List BTSlot),
      current_fp ≠ 0 → prev_fp ≠ current_fp → entries.length + fuel ≤ 33 →
      ∃ written : List BTSlot,
        btLoop mem prev_fp current_fp fuel entries = some (entries ++ written, 0) ∧
          written.length = fuel ∧
          ∀ e ∈ written, ∃ be : BTEntry, e = Except.ok be := by
  intro fuel
  induction fuel with
  | zero =>
    intro prev_fp current_fp entries _ _ _
    refine ⟨([] : List BTSlot), ?_, rfl, ?_⟩
    · simp [btLoop]
    · simp
  | succ n ih =>
    intro prev_fp current_fp entries hcfp hne hbound
    have hlen : entries.length < 33 := by omega
    rw [btLoop_step mem prev_fp current_fp n entries hcfp hne hlen]
    obtain ⟨hnext0, hnextne⟩ := hvalid current_fp hcfp
    have hbound' : (entries ++ [(Except.ok ⟨current_fp, mem current_fp⟩ : BTSlot)]).length + n ≤ 33 := by
      simp; omega
    obtain ⟨written, heq, hwlen, hok⟩ :=
      ih current_fp (mem current_fp).previous_frame
        (entries ++ [(Except.ok ⟨current_fp, mem current_fp⟩ : BTSlot)]) hnext0 (Ne.symm hnextne) hbound'
    refine ⟨(Except.ok ⟨current_fp, mem current_fp⟩ : BTSlot) :: written, ?_, by simp [hwlen], ?_⟩
    · rw [heq]
      simp
    · intro e he
      rcases List.mem_cons.mp he with h | h
      · exact ⟨⟨current_fp, mem current_fp⟩, h⟩
      · exact hok e h

/-- A concrete unboundedly long valid frame-pointer chain: the frame stored at
address `a` points to the frame at `a + 16` and records return address `100`. -/
def chainMem : Nat → StackFrame := fun a => ⟨a + 16, 100⟩

/-- C3 counterexample: with limit 5 and the unbounded valid chain `chainMem`
(initial frame pointer 16, current LR 999), the walk records 31 resolved
entries — not at most 5 — because the limit is clamped up to 32. -/
theorem backtrace_limit5_counterexample :
    resolvedCount (NewResult.entriesOf (Backtrace.new chainMem 16 999 5)) = 31 ∧
      ¬ resolvedCount (NewResult.entriesOf (Backtrace.new chainMem 16 999 5)) ≤ 5 := by
  decide

/-- C3 amended: `Backtrace::new` with limit 5, a non-null frame pointer and an
unboundedly long valid chain clamps the limit to 32 and terminates with exactly
one trailing `BacktraceLimitReached` error entry and exactly 31 resolved
entries before it. -/
theorem backtrace_limit5_gives_31_resolved (mem : Nat → StackFrame) (fp lr : Nat)
    (hfp : fp ≠ 0)
    (hvalid : ∀ a, a ≠ 0 → (mem a).previous_frame ≠ 0 ∧ (mem a).previous_frame ≠ a) :
    (Backtrace.new mem fp lr 5).isOkB = true ∧
      resolvedCount (NewResult.entriesOf (Backtrace.new mem fp lr 5)) = 31 ∧
      errorCount (NewResult.entriesOf (Backtrace.new mem fp lr 5)) = 1 ∧
      (NewResult.entriesOf (Backtrace.new mem fp lr 5)).getLast? =
        some (Except.error BacktraceError.BacktraceLimitReached) := by
  have hfp' := hvalid fp hfp
  by_cases hra : (mem fp).return_address = lr
  · obtain ⟨written, hloop, hwlen, hok⟩ :=
      btLoop_valid_chain mem hvalid 31 fp (mem fp).previous_frame []
        hfp'.1 (Ne.symm hfp'.2) (by simp)
    have key : Backtrace.new mem fp lr 5 =
        NewResult.ok ⟨some ⟨fp, mem fp⟩, lr,
          written ++ [Except.error BacktraceError.BacktraceLimitReached]⟩ := by
      simp only [Backtrace.new, if_neg hfp, if_neg (not_not_intro hra)]
      norm_num
      rw [hloop]
      simp [pushEntry, hwlen]
    rw [key]
    refine ⟨rfl, ?_, ?_, ?_⟩
    · simp only [NewResult.entriesOf, resolvedCount, List.filter_append]
      rw [List.filter_eq_self.mpr (by intro e he; obtain ⟨be, hbe⟩ := hok e he; simp [hbe])]
      simp [hwlen]
    · simp only [NewResult.entriesOf, errorCount, List.filter_append]
      rw [List.filter_eq_nil_iff.mpr (by intro e he; obtain ⟨be, hbe⟩ := hok e he; simp [hbe])]
      simp
    · simp [NewResult.entriesOf]
  · obtain ⟨written, hloop, hwlen, hok⟩ :=
      btLoop_valid_chain mem hvalid 31 0 fp [] hfp (Ne.symm hfp) (by simp)
    have key : Backtrace.new mem fp lr 5 =
        NewResult.ok ⟨none, lr,
          written ++ [Except.error BacktraceError.BacktraceLimitReached]⟩ := by
      simp only [Backtrace.new, if_neg hfp, if_pos hra]
      norm_num
      rw [hloop]
      simp [pushEntry, hwlen]
    rw [key]
    refine ⟨rfl, ?_, ?_, ?_⟩
    · simp only [NewResult.entriesOf, resolvedCount, List.filter_append]
      rw [List.filter_eq_self.mpr (by intro e he; obtain ⟨be, hbe⟩ := hok e he; simp [hbe])]
      simp [hwlen]
    · simp only [NewResult.entriesOf, errorCount, List.filter_append]
      rw [List.filter_eq_nil_iff.mpr (by intro e he; obtain ⟨be, hbe⟩ := hok e he; simp [hbe])]
      simp
    · simp [NewResult.entriesOf]

/-- Witness for the amended C3 on the concrete chain `chainMem`. -/
theorem backtrace_limit5_gives_31_resolved_witness :
    (Backtrace.new chainMem 16 999 5).isOkB = true ∧
      resolvedCount (NewResult.entriesOf (Backtrace.new chainMem 16 999 5)) = 31 ∧
      errorCount (NewResult.entriesOf (Backtrace.new chainMem 16 999 5)) = 1 ∧
      (NewResult.entriesOf (Backtrace.new chainMem 16 999 5)).getLast? =
        some (Except.error BacktraceError.BacktraceLimitReached) :=
  backtrace_limit5_gives_31_resolved chainMem 16 999 (by decide)
    (fun a _ => ⟨by simp [chainMem], by simp [chainMem]⟩)

/-- C5 failing input: with limit 34 and a valid chain at least 34 frames deep,
the trailing `BacktraceLimitReached` write lands at index 33 of the 33-slot
array — an out-of-bounds write (a panic in the Rust source), so the walk is
not total and differs from a growable sequence. -/
theorem backtrace_limit34_index_out_of_bounds :
    Backtrace.new chainMem 16 0 34 = NewResult.indexOutOfBounds := by
  decide

/-- C8: on a frame whose stored `previousFramePointer` is the frame pointer
itself, the walk stops within one extra step, returns `Ok`, and the last entry
written is the `RecursiveFramePointer` error. -/
theorem backtrace_recursive_frame_pointer (mem : Nat → StackFrame)
    (fp lr limit : Nat) (hfp : fp ≠ 0) (hself : (mem fp).previous_frame = fp) :
    (Backtrace.new mem fp lr limit).isOkB = true ∧
      (NewResult.entriesOf (Backtrace.new mem fp lr limit)).getLast? =
        some (Except.error BacktraceError.RecursiveFramePointer) ∧
      (NewResult.entriesOf (Backtrace.new mem fp lr limit)).length ≤ 2 := by
  have h32 : 32 ≤ max limit 32 := le_max_right _ _
  obtain ⟨k, hk⟩ : ∃ k, max limit 32 - 1 = k + 1 + 1 := ⟨max limit 32 - 3, by omega⟩
  by_cases hra : (mem fp).return_address = lr
  · have key : Backtrace.new mem fp lr limit =
        NewResult.ok ⟨some ⟨fp, mem fp⟩, lr,
          [Except.error BacktraceError.RecursiveFramePointer]⟩ := by
      simp only [Backtrace.new, if_neg hfp, if_neg (not_not_intro hra)]
      rw [hk, hself, btLoop_recursive mem fp fp (k + 1) [] hfp rfl (by simp)]
      simp
    rw [key]
    exact ⟨rfl, rfl, by simp [NewResult.entriesOf]⟩
  · have key : Backtrace.new mem fp lr limit =
        NewResult.ok ⟨none, lr,
          [Except.ok ⟨fp, mem fp⟩,
           Except.error BacktraceError.RecursiveFramePointer]⟩ := by
      simp only [Backtrace.new, if_neg hfp, if_pos hra]
      rw [hk, btLoop_step mem 0 fp (k + 1) [] hfp (Ne.symm hfp) (by simp), hself]
      simp only [List.nil_append]
      rw [btLoop_recursive mem fp fp k [Except.ok ⟨fp, mem fp⟩] hfp rfl (by simp)]
      simp
    rw [key]
    exact ⟨rfl, rfl, by simp [NewResult.entriesOf]⟩

/-- A memory in which every frame stores itself as the previous frame pointer. -/
def selfMem : Nat → StackFrame := fun a => ⟨a, 77⟩

/-- Witness for C8 at the concrete self-referential frame at address 8. -/
theorem backtrace_recursive_frame_pointer_witness :
    (Backtrace.new selfMem 8 77 0).isOkB = true ∧
      (NewResult.entriesOf (Backtrace.new selfMem 8 77 0)).getLast? =
        some (Except.error BacktraceError.RecursiveFramePointer) ∧
      (NewResult.entriesOf (Backtrace.new selfMem 8 77 0)).length ≤ 2 :=
  backtrace_recursive_frame_pointer selfMem 8 77 0 (by decide) rfl

/-! ## Trampoline slot and the generated call-original path
(skyline-macro/src/hooks.rs `push_original_utils`,
skyline-macro/src/hooks/jit_hooks.rs / symbol_hooks.rs)

Both hook strategies declare `static mut <..>_trampoline: u64 = 0`.  The JIT
install function stores the patch engine's returned original-entry pointer into
the slot (`skex_hooks_install` for the direct-patch strategy; the symbol
strategy passes `&mut trampoline` for the engine to fill on success — either
way a successful install writes the engine-provided non-zero entry).  The
generated `original!` macro panics with a message naming the hook when the
slot is still zero and otherwise transmutes the slot into a function pointer
and calls through it. -/

structure HookState where
  trampoline : Nat
deriving DecidableEq, Repr

/-- The `static mut .. : u64 = 0` initial state of the trampoline slot. -/
def initialHookState : HookState := ⟨0⟩

/-- The trampoline-slot write performed by `install()`: the slot receives the
patch engine's returned original entry point (a machine word). -/
def jit_install (_ : HookState) (originalEntry : Nat) : HookState :=
  ⟨originalEntry⟩

/-- Outcome of invoking the generated `original!`/`call_original!` path. -/
inductive OriginalCall
  | panicked (msg : String)
  | call (addr : Nat)
deriving DecidableEq, Repr

/-- Embedding of the `original!` macro body inserted by `push_original_utils`:
`if trampoline == 0 then panic("Error calling function hook {base_ident}, ...")
else transmute(trampoline)` — calling through the returned pointer. -/
def originalMacro (hookName : String) (st : HookState) : OriginalCall :=
  if st.trampoline = 0 then
    OriginalCall.panicked
      ("Error calling function hook " ++ hookName ++ ", original function not set.")
  else OriginalCall.call st.trampoline

/-- C2: the trampoline slot is zero before the first install and non-zero
immediately after a successful install (one returning a non-zero original
entry); invoking the call-original path while the slot is zero panics with a
message naming the hook and never transfers control through the zero slot. -/
theorem trampoline_contract :
    initialHookState.trampoline = 0 ∧
      (∀ (st : HookState) (originalEntry : Nat), originalEntry ≠ 0 →
        (jit_install st originalEntry).trampoline ≠ 0) ∧
      (∀ (hookName : String) (st : HookState), st.trampoline = 0 →
        originalMacro hookName st =
          OriginalCall.panicked
            ("Error calling function hook " ++ hookName ++ ", original function not set.")) ∧
      (∀ (hookName : String) (st : HookState) (addr : Nat), st.trampoline = 0 →
        originalMacro hookName st ≠ OriginalCall.call addr) := by
  refine ⟨rfl, ?_, ?_, ?_⟩
  · intro st originalEntry h
    simpa [jit_install] using h
  · intro hookName st h
    simp [originalMacro, h]
  · intro hookName st addr h
    simp [originalMacro, h]

/-- Witness for C2: installing engine result 0x71000 over the initial state
yields a non-zero slot, and calling `original!` of hook `my_hook` on the
initial (zero) state panics naming the hook. -/
theorem trampoline_contract_witness :
    initialHookState.trampoline = 0 ∧
      (jit_install initialHookState 0x71000).trampoline ≠ 0 ∧
      originalMacro "my_hook" initialHookState =
        OriginalCall.panicked
          ("Error calling function hook " ++ "my_hook" ++ ", original function not set.") ∧
      originalMacro "my_hook" initialHookState ≠ OriginalCall.call 0 :=
  ⟨trampoline_contract.1,
   trampoline_contract.2.1 initialHookState 0x71000 (by decide),
   trampoline_contract.2.2.1 "my_hook" initialHookState rfl,
   trampoline_contract.2.2.2 "my_hook" initialHookState 0 rfl⟩

/-! ## Enable/disable semantics of the two strategies
(symbol_hooks.rs `generate_enable_fn`/`generate_disable_fn`,
jit_hooks.rs `evaluate_hooking_expression_for_set_enable`) -/

/-- The per-hook statics of a precompiled-stub (symbol) hook: the trampoline
slot and the private `is_enabled` flag (`static mut .. : bool = true`). -/
structure SymbolHookState where
  trampoline : Nat
  is_enabled : Bool
deriving DecidableEq, Repr

/-- Generated `enable()` of a symbol hook: `is_enabled = true`. -/
def symbol_enable (st : SymbolHookState) : SymbolHookState :=
  { st with is_enabled := true }

/-- Generated `disable()` of a symbol hook: `is_enabled = false`. -/
def symbol_disable (st : SymbolHookState) : SymbolHookState :=
  { st with is_enabled := false }

/-- The external memory queries the generated JIT enable/disable code performs:
`skex_memory_get_known_static_module(..).text()` (always present),
`skex_memory_get_static_module_by_name`, and `rtld::find_module_by_name`. -/
structure MemoryEnv where
  knownStaticText : KnownModule → Nat
  staticByName : String → Option Nat
  rtldByName : String → Option Nat

/-- Result of evaluating the hooking expression for `setEnable`. -/
inductive EvalResult
  | addr (a : Nat)
  | panicked (msg : String)
deriving DecidableEq, Repr

/-- Embedding of `evaluate_hooking_expression_for_set_enable`: an absolute
(`replace`) expression is used as-is (`exprVal` is the runtime value of the
target expression); an `offset` expression is added to the base of the module
argument (default `main`); a named module falls back from the static-module
query to the rtld lookup, and panics naming the module if neither finds it. -/
def evaluate_set_enable_expr (env : MemoryEnv) (attrs : HookAttributes)
    (exprVal : Nat) : EvalResult :=
  match attrs.style.key with
  | HookStyle.Symbol => EvalResult.addr exprVal
  | HookStyle.Offset =>
    match attrs.module.getD (ModuleArg.byKnown KnownModule.Main) with
    | ModuleArg.byKnown known => EvalResult.addr (env.knownStaticText known + exprVal)
    | ModuleArg.byName name =>
      match env.staticByName name with
      | some textBase => EvalResult.addr (textBase + exprVal)
      | none =>
        match env.rtldByName name with
        | some base => EvalResult.addr (base + exprVal)
        | none =>
          EvalResult.panicked
            ("Dynamic module \"" ++ name ++
              "\" is not currently loaded, the hook state cannot be changed!")

/-- Outcome of the generated JIT `enable()`/`disable()` body: either the
`skex_hooks_set_enable(user, addr, enabled)` FFI call with the re-resolved
address, or a panic before any call. -/
inductive SetEnableOutcome
  | setEnable (user addr : Nat) (enabled : Bool)
  | panicked (msg : String)
deriving DecidableEq, Repr

/-- Generated `enable()`/`disable()` of a direct-patch (JIT) hook: evaluate the
target expression, then call `skex_hooks_set_enable`. -/
def jit_set_enable (env : MemoryEnv) (attrs : HookAttributes)
    (exprVal user : Nat) (enabled : Bool) : SetEnableOutcome :=
  match evaluate_set_enable_expr env attrs exprVal with
  | EvalResult.addr a => SetEnableOutcome.setEnable user a enabled
  | EvalResult.panicked m => SetEnableOutcome.panicked m

/-- C7: enable/disable of a precompiled-stub hook only flips the private
boolean flag (the trampoline is untouched, no environment query is made, and
the operation is total, so it cannot fail), while enable/disable of a
direct-patch hook whose `offset` target names a dynamic module that is neither
a loaded static module nor found by the rtld lookup panics with a message
naming the module instead of silently doing nothing. -/
theorem enable_disable_strategies :
    (∀ st : SymbolHookState,
      symbol_enable st = ⟨st.trampoline, true⟩ ∧
        symbol_disable st = ⟨st.trampoline, false⟩) ∧
      (∀ (env : MemoryEnv) (attrs : HookAttributes) (exprVal user : Nat)
          (enabled : Bool) (name : String),
        attrs.style.key = HookStyle.Offset →
        attrs.module = some (ModuleArg.byName name) →
        env.staticByName name = none →
        env.rtldByName name = none →
        jit_set_enable env attrs exprVal user enabled =
          SetEnableOutcome.panicked
            ("Dynamic module \"" ++ name ++
              "\" is not currently loaded, the hook state cannot be changed!")) := by
  constructor
  · intro st
    exact ⟨rfl, rfl⟩
  · intro env attrs exprVal user enabled name hkey hmod hstatic hrtld
    simp [jit_set_enable, evaluate_set_enable_expr, hkey, hmod, hstatic, hrtld]

/-- Witness for C7: flipping the flag on a concrete stub-hook state, and a
concrete environment with no module named "libfoo.nro" loaded. -/
theorem enable_disable_strategies_witness :
    symbol_enable ⟨0x71000, false⟩ = ⟨0x71000, true⟩ ∧
      symbol_disable ⟨0x71000, true⟩ = ⟨0x71000, false⟩ ∧
      jit_set_enable ⟨fun _ => 0x8004000, fun _ => none, fun _ => none⟩
          ⟨some (ModuleArg.byName "libfoo.nro"), ⟨HookStyle.Offset, HookExpr.litOther⟩, false⟩
          0x1234 0x5000 true =
        SetEnableOutcome.panicked
          ("Dynamic module \"" ++ "libfoo.nro" ++
            "\" is not currently loaded, the hook state cannot be changed!") :=
  ⟨(enable_disable_strategies.1 ⟨0x71000, false⟩).1,
   (enable_disable_strategies.1 ⟨0x71000, true⟩).2,
   enable_disable_strategies.2 ⟨fun _ => 0x8004000, fun _ => none, fun _ => none⟩
     ⟨some (ModuleArg.byName "libfoo.nro"), ⟨HookStyle.Offset, HookExpr.litOther⟩, false⟩
     0x1234 0x5000 true "libfoo.nro" rfl rfl rfl rfl⟩

/-! ## Module registry symbol lookup (src/rtld/mod.rs)

`ModuleObject` is reduced to the fields `find_symbol_for_address` reads: the
module base, the dynamic symbol table (its first `hash_nchain_value` entries,
as iterated by the source), and the dynamic string table (a byte array).
Symbol names are byte strings; the source's C-string extraction at
`dynstr + st_name` is `cstrAt`. -/

structure Sym64 where
  st_name : Nat
  st_info : Nat
  st_shndx : Nat
  st_value : Nat
  st_size : Nat
deriving DecidableEq, Repr

structure ModuleObject where
  module_base : Nat
  dynsym : List Sym64
  dynstr : List Nat
deriving DecidableEq, Repr

/-- The NUL-terminated byte string starting at offset `off` of the dynamic
string table (the source scans for the terminating 0 byte). -/
def cstrAt (dynstr : List Nat) (off : Nat) : List Nat :=
  (dynstr.drop off).takeWhile (fun b => b != 0)

/-- The symbol-table scan loop of `find_symbol_for_address`: skip symbols with
section index 0 or in the reserved `0xFFxx` range, skip non-function symbols
(`st_info & 0xF != 2`), and return the first function symbol whose range
contains the address with an inclusive upper bound. -/
def findSymGo (m : ModuleObject) (address : Nat) : List Sym64 → Option (List Nat × Nat)
  | [] => none
  | symbol :: rest =>
    if symbol.st_shndx = 0 ∨ symbol.st_shndx &&& 0xFF00 = 0xFF00 then
      findSymGo m address rest
    else if symbol.st_info &&& 0xF ≠ 2 then
      findSymGo m address rest
    else
      let function_start := m.module_base + symbol.st_value
      let function_end := function_start + symbol.st_size
      if function_start ≤ address ∧ address ≤ function_end then
        some (cstrAt m.dynstr symbol.st_name, function_start)
      else findSymGo m address rest

/-- Embedding of `ModuleObject::find_symbol_for_address`. -/
def find_symbol_for_address (m : ModuleObject) (address : Nat) :
    Option (List Nat × Nat) :=
  findSymGo m address m.dynsym

theorem findSymGo_sound (m : ModuleObject) (address : Nat) :
    ∀ (syms : List Sym64) (name : List Nat) (start : Nat),
      findSymGo m address syms = some (name, start) →
      ∃ symbol ∈ syms,
        symbol.st_shndx ≠ 0 ∧
          symbol.st_shndx &&& 0xFF00 ≠ 0xFF00 ∧
          symbol.st_info &&& 0xF = 2 ∧
          start = m.module_base + symbol.st_value ∧
          start ≤ address ∧
          address ≤ start + symbol.st_size ∧
          name = cstrAt m.dynstr symbol.st_name := by
  intro syms
  induction syms with
  | nil =>
    intro name start h
    simp [findSymGo] at h
  | cons symbol rest ih =>
    intro name start h
    by_cases h1 : symbol.st_shndx = 0 ∨ symbol.st_shndx &&& 0xFF00 = 0xFF00
    · rw [findSymGo, if_pos h1] at h
      obtain ⟨s, hs, hp⟩ := ih name start h
      exact ⟨s, List.mem_cons_of_mem _ hs, hp⟩
    · by_cases h2 : symbol.st_info &&& 0xF ≠ 2
      · rw [findSymGo, if_neg h1, if_pos h2] at h
        obtain ⟨s, hs, hp⟩ := ih name start h
        exact ⟨s, List.mem_cons_of_mem _ hs, hp⟩
      · by_cases h3 : m.module_base + symbol.st_value ≤ address ∧
            address ≤ m.module_base + symbol.st_value + symbol.st_size
        · rw [findSymGo, if_neg h1, if_neg h2] at h
          simp only [if_pos h3, Option.some.injEq, Prod.mk.injEq] at h
          push_neg at h1
          refine ⟨symbol, List.mem_cons_self _ _,
            h1.1, h1.2, not_not.mp h2, h.2.symm, ?_, ?_, h.1.symm⟩
          · omega
          · omega
        · rw [findSymGo, if_neg h1, if_neg h2] at h
          simp only [if_neg h3] at h
          obtain ⟨s, hs, hp⟩ := ih name start h
          exact ⟨s, List.mem_cons_of_mem _ hs, hp⟩

/-- C9: whenever `find_symbol_for_address` returns `(name, start)`, the match
is a function-type symbol (`st_info & 0xF = 2`) with an eligible section index
(neither 0 nor in the reserved `0xFFxx` range) whose range contains the query
address with an inclusive upper bound: `start ≤ addr ≤ start + size`. -/
theorem find_symbol_for_address_sound (m : ModuleObject) (address : Nat)
    (name : List Nat) (start : Nat)
    (h : find_symbol_for_address m address = some (name, start)) :
    ∃ symbol ∈ m.dynsym,
      symbol.st_shndx ≠ 0 ∧
        symbol.st_shndx &&& 0xFF00 ≠ 0xFF00 ∧
        symbol.st_info &&& 0xF = 2 ∧
        start = m.module_base + symbol.st_value ∧
        start ≤ address ∧
        address ≤ start + symbol.st_size ∧
        name = cstrAt m.dynstr symbol.st_name :=
  findSymGo_sound m address m.dynsym name start h

/-- A one-symbol module used to witness C9: a function symbol of size `0x20`
at offset `0x100` in a module based at `0x1000`. -/
def sampleModule : ModuleObject :=
  ⟨0x1000, [⟨0, 2, 1, 0x100, 0x20⟩], [65, 66, 0, 67]⟩

/-- Witness for C9 at the address exactly equal to `start + size`
(`0x1000 + 0x100 + 0x20`), demonstrating the inclusive upper bound. -/
theorem find_symbol_for_address_sound_witness :
    ∃ symbol ∈ sampleModule.dynsym,
      symbol.st_shndx ≠ 0 ∧
        symbol.st_shndx &&& 0xFF00 ≠ 0xFF00 ∧
        symbol.st_info &&& 0xF = 2 ∧
        0x1100 = sampleModule.module_base + symbol.st_value ∧
        0x1100 ≤ 0x1120 ∧
        0x1120 ≤ 0x1100 + symbol.st_size ∧
        [65, 66] = cstrAt sampleModule.dynstr symbol.st_name :=
  find_symbol_for_address_sound sampleModule 0x1120 [65, 66] 0x1100 (by decide)

/-! ## SIMD register lane model (src/hooks/registers.rs)

A 128-bit register is a `Nat` value; lane `i` of width `w` bits occupies bits
`[w*i, w*i + w)` (the little-endian layout of the Rust raw-pointer lane
stores).  `getLane`/`setLane` are the load/store of one lane. -/

/-- Load lane `i` of width `w` from register value `v`. -/
def getLane (v w i : Nat) : Nat := v / 2 ^ (w * i) % 2 ^ w

/-- Store `x` (truncated to `w` bits) into lane `i` of register value `v`,
leaving all other bits unchanged — the effect of `slice[i] = x` on the
register's little-endian memory. -/
def setLane (v w i x : Nat) : Nat :=
  v % 2 ^ (w * i) + x % 2 ^ w * 2 ^ (w * i) +
    v / 2 ^ (w * i + w) * 2 ^ (w * i + w)

theorem getLane_setLane_self (v w i x : Nat) :
    getLane (setLane v w i x) w i = x % 2 ^ w := by
  unfold getLane setLane
  have hA : 0 < 2 ^ (w * i) := pow_pos (by norm_num) _
  have hkey : v % 2 ^ (w * i) + x % 2 ^ w * 2 ^ (w * i) +
      v / 2 ^ (w * i + w) * 2 ^ (w * i + w) =
      v % 2 ^ (w * i) +
        (x % 2 ^ w + v / (2 ^ (w * i) * 2 ^ w) * 2 ^ w) * 2 ^ (w * i) := by
    rw [pow_add]
    ring
  rw [hkey, Nat.add_mul_div_right _ _ hA,
    Nat.div_eq_of_lt (Nat.mod_lt _ hA), Nat.zero_add,
    Nat.add_mul_mod_self_right, Nat.mod_mod_of_dvd _ dvd_rfl]

theorem getLane_eq_of_mod_eq (a b w k M : Nat) (hM : 2 ^ (w * k + w) ∣ M)
    (h : a % M = b % M) : getLane a w k = getLane b w k := by
  unfold getLane
  rw [← Nat.mod_mul_right_div_self a (2 ^ (w * k)) (2 ^ w),
    ← Nat.mod_mul_right_div_self b (2 ^ (w * k)) (2 ^ w)]
  congr 1
  rw [← pow_add]
  calc a % 2 ^ (w * k + w) = a % M % 2 ^ (w * k + w) := (Nat.mod_mod_of_dvd a hM).symm
    _ = b % M % 2 ^ (w * k + w) := by rw [h]
    _ = b % 2 ^ (w * k + w) := Nat.mod_mod_of_dvd b hM

theorem getLane_setLane_lt (v w i x k : Nat) (hk : k < i) :
    getLane (setLane v w i x) w k = getLane v w k := by
  have hmod : setLane v w i x % 2 ^ (w * i) = v % 2 ^ (w * i) := by
    unfold setLane
    have hkey : v % 2 ^ (w * i) + x % 2 ^ w * 2 ^ (w * i) +
        v / 2 ^ (w * i + w) * 2 ^ (w * i + w) =
        v % 2 ^ (w * i) +
          (x % 2 ^ w + v / (2 ^ (w * i) * 2 ^ w) * 2 ^ w) * 2 ^ (w * i) := by
      rw [pow_add]
      ring
    rw [hkey, Nat.add_mul_mod_self_right, Nat.mod_mod_of_dvd _ dvd_rfl]
  have hle : w * k + w ≤ w * i := by
    calc w * k + w = w * (k + 1) := (Nat.mul_succ w k).symm
      _ ≤ w * i := Nat.mul_le_mul_left _ hk
  exact getLane_eq_of_mod_eq _ _ w k (2 ^ (w * i)) (pow_dvd_pow 2 hle) hmod

theorem getLane_setLane_gt (v w i x k : Nat) (hk : i < k) :
    getLane (setLane v w i x) w k = getLane v w k := by
  have hB : 0 < 2 ^ w := pow_pos (by norm_num) w
  have hdiv : setLane v w i x / 2 ^ (w * i + w) = v / 2 ^ (w * i + w) := by
    unfold setLane
    have hlow : v % 2 ^ (w * i) + x % 2 ^ w * 2 ^ (w * i) < 2 ^ (w * i + w) := by
      have h1 : v % 2 ^ (w * i) < 2 ^ (w * i) :=
        Nat.mod_lt _ (pow_pos (by norm_num) _)
      have h2 : x % 2 ^ w + 1 ≤ 2 ^ w := Nat.mod_lt _ hB
      calc v % 2 ^ (w * i) + x % 2 ^ w * 2 ^ (w * i)
          < 2 ^ (w * i) + x % 2 ^ w * 2 ^ (w * i) := Nat.add_lt_add_right h1 _
        _ = (x % 2 ^ w + 1) * 2 ^ (w * i) := by ring
        _ ≤ 2 ^ w * 2 ^ (w * i) := Nat.mul_le_mul_right _ h2
        _ = 2 ^ (w * i + w) := by rw [← pow_add, Nat.add_comm]
    rw [Nat.add_mul_div_right _ _ (pow_pos (by norm_num) _),
      Nat.div_eq_of_lt hlow, Nat.zero_add]
  have hsplit : w * i + w + w * (k - i - 1) = w * k := by
    obtain ⟨t, rfl⟩ := Nat.exists_eq_add_of_lt hk
    have hts : i + t + 1 - i - 1 = t := by omega
    rw [hts]
    ring
  calc getLane (setLane v w i x) w k
      = setLane v w i x / 2 ^ (w * i + w) / 2 ^ (w * (k - i - 1)) % 2 ^ w := by
        unfold getLane
        rw [Nat.div_div_eq_div_mul, ← pow_add, hsplit]
    _ = v / 2 ^ (w * i + w) / 2 ^ (w * (k - i - 1)) % 2 ^ w := by rw [hdiv]
    _ = getLane v w k := by
        unfold getLane
        rw [Nat.div_div_eq_div_mul, ← pow_add, hsplit]

theorem getLane_setLane_ne (v w i x k : Nat) (hne : k ≠ i) :
    getLane (setLane v w i x) w k = getLane v w k := by
  rcases Nat.lt_or_ge k i with h | h
  · exact getLane_setLane_lt v w i x k h
  · exact getLane_setLane_gt v w i x k (lt_of_le_of_ne h (Ne.symm hne))

theorem getLane_small (y w k : Nat) (hy : y < 2 ^ w) (hk : k ≠ 0) :
    getLane y w k = 0 := by
  unfold getLane
  have hle : w ≤ w * k := Nat.le_mul_of_pos_right w (Nat.pos_of_ne_zero hk)
  have : y < 2 ^ (w * k) := lt_of_lt_of_le hy (Nat.pow_le_pow_right (by norm_num) hle)
  rw [Nat.div_eq_of_lt this, Nat.zero_mod]

/-- A 128-bit NEON/SIMD register (`VectorRegister(u128)`). -/
structure VectorRegister where
  v : Nat
deriving DecidableEq, Repr

/-- `set_v`: sets all 128 bits of the vector register. -/
def VectorRegister.set_v (_ : VectorRegister) (x : Nat) : VectorRegister :=
  ⟨x % 2 ^ 128⟩

/-- `set_d(index, d)`: store a 64-bit lane; the index must be in bounds (the
Rust slice store panics otherwise). -/
def VectorRegister.set_d (r : VectorRegister) (index : Nat) (d : Nat)
    (_ : index < 2) : VectorRegister :=
  ⟨setLane r.v 64 index d⟩

/-- `set_s(index, s)`: store a 32-bit lane. -/
def VectorRegister.set_s (r : VectorRegister) (index : Nat) (s : Nat)
    (_ : index < 4) : VectorRegister :=
  ⟨setLane r.v 32 index s⟩

/-- `set_h(index, h)`: store a 16-bit lane. -/
def VectorRegister.set_h (r : VectorRegister) (index : Nat) (h : Nat)
    (_ : index < 8) : VectorRegister :=
  ⟨setLane r.v 16 index h⟩

/-- `set_b(index, b)`: store an 8-bit lane. -/
def VectorRegister.set_b (r : VectorRegister) (index : Nat) (b : Nat)
    (_ : index < 16) : VectorRegister :=
  ⟨setLane r.v 8 index b⟩

/-- A 128-bit FPU register (`FpuRegister(u128)`), which views only the lowest
lane of the shared storage. -/
structure FpuRegister where
  q : Nat
deriving DecidableEq, Repr

/-- `as_vec`: reinterpret the FPU register as a vector register. -/
def FpuRegister.as_vec (r : FpuRegister) : VectorRegister := ⟨r.q⟩

/-- `set_q`: sets all 128 bits of the register. -/
def FpuRegister.set_q (_ : FpuRegister) (x : Nat) : FpuRegister :=
  ⟨x % 2 ^ 128⟩

/-- `set_d(d)`: `vec.set_v(0); vec.set_d(0, d)` — zero the whole register, then
store the 64-bit value in the lowest lane. -/
def FpuRegister.set_d (r : FpuRegister) (d : Nat) : FpuRegister :=
  ⟨((r.as_vec.set_v 0).set_d 0 d (by norm_num)).v⟩

/-- `set_s(s)`: zero the register, then store the 32-bit value in lane 0. -/
def FpuRegister.set_s (r : FpuRegister) (s : Nat) : FpuRegister :=
  ⟨((r.as_vec.set_v 0).set_s 0 s (by norm_num)).v⟩

/-- `set_h(h)`: zero the register, then store the 16-bit value in lane 0. -/
def FpuRegister.set_h (r : FpuRegister) (h : Nat) : FpuRegister :=
  ⟨((r.as_vec.set_v 0).set_h 0 h (by norm_num)).v⟩

/-- `set_b(b)`: zero the register, then store the 8-bit value in lane 0. -/
def FpuRegister.set_b (r : FpuRegister) (b : Nat) : FpuRegister :=
  ⟨((r.as_vec.set_v 0).set_b 0 b (by norm_num)).v⟩

theorem fpu_set_d_eq (r : FpuRegister) (x : Nat) :
    (r.set_d x).q = x % 2 ^ 64 := by
  simp [FpuRegister.set_d, FpuRegister.as_vec, VectorRegister.set_v,
    VectorRegister.set_d, setLane]

theorem fpu_set_s_eq (r : FpuRegister) (x : Nat) :
    (r.set_s x).q = x % 2 ^ 32 := by
  simp [FpuRegister.set_s, FpuRegister.as_vec, VectorRegister.set_v,
    VectorRegister.set_s, setLane]

theorem fpu_set_h_eq (r : FpuRegister) (x : Nat) :
    (r.set_h x).q = x % 2 ^ 16 := by
  simp [FpuRegister.set_h, FpuRegister.as_vec, VectorRegister.set_v,
    VectorRegister.set_h, setLane]

theorem fpu_set_b_eq (r : FpuRegister) (x : Nat) :
    (r.set_b x).q = x % 2 ^ 8 := by
  simp [FpuRegister.set_b, FpuRegister.as_vec, VectorRegister.set_v,
    VectorRegister.set_b, setLane]

/-- C10: each `VectorRegister` lane setter writes the addressed lane and leaves
every other lane of that width (hence every other bit) unchanged, while each
`FpuRegister` sub-width setter zeroes the whole 128-bit register and stores the
new value in the lowest lane, so the register equals the truncated value and
every lane other than lane 0 is zero afterwards. -/
theorem register_lane_setters (r : VectorRegister) (fr : FpuRegister) (i x : Nat) :
    (∀ h : i < 2, getLane ((r.set_d i x h).v) 64 i = x % 2 ^ 64 ∧
      ∀ k, k ≠ i → getLane ((r.set_d i x h).v) 64 k = getLane r.v 64 k) ∧
    (∀ h : i < 4, getLane ((r.set_s i x h).v) 32 i = x % 2 ^ 32 ∧
      ∀ k, k ≠ i → getLane ((r.set_s i x h).v) 32 k = getLane r.v 32 k) ∧
    (∀ h : i < 8, getLane ((r.set_h i x h).v) 16 i = x % 2 ^ 16 ∧
      ∀ k, k ≠ i → getLane ((r.set_h i x h).v) 16 k = getLane r.v 16 k) ∧
    (∀ h : i < 16, getLane ((r.set_b i x h).v) 8 i = x % 2 ^ 8 ∧
      ∀ k, k ≠ i → getLane ((r.set_b i x h).v) 8 k = getLane r.v 8 k) ∧
    ((fr.set_d x).q = x % 2 ^ 64 ∧
      ∀ k, k ≠ 0 → getLane (fr.set_d x).q 64 k = 0) ∧
    ((fr.set_s x).q = x % 2 ^ 32 ∧
      ∀ k, k ≠ 0 → getLane (fr.set_s x).q 32 k = 0) ∧
    ((fr.set_h x).q = x % 2 ^ 16 ∧
      ∀ k, k ≠ 0 → getLane (fr.set_h x).q 16 k = 0) ∧
    ((fr.set_b x).q = x % 2 ^ 8 ∧
      ∀ k, k ≠ 0 → getLane (fr.set_b x).q 8 k = 0) := by
  refine ⟨?_, ?_, ?_, ?_, ?_, ?_, ?_, ?_⟩
  · intro h
    exact ⟨getLane_setLane_self r.v 64 i x,
      fun k hk => getLane_setLane_ne r.v 64 i x k hk⟩
  · intro h
    exact ⟨getLane_setLane_self r.v 32 i x,
      fun k hk => getLane_setLane_ne r.v 32 i x k hk⟩
  · intro h
    exact ⟨getLane_setLane_self r.v 16 i x,
      fun k hk => getLane_setLane_ne r.v 16 i x k hk⟩
  · intro h
    exact ⟨getLane_setLane_self r.v 8 i x,
      fun k hk => getLane_setLane_ne r.v 8 i x k hk⟩
  · refine ⟨fpu_set_d_eq fr x, fun k hk => ?_⟩
    rw [fpu_set_d_eq fr x]
    exact getLane_small _ 64 k (Nat.mod_lt _ (by norm_num)) hk
  · refine ⟨fpu_set_s_eq fr x, fun k hk => ?_⟩
    rw [fpu_set_s_eq fr x]
    exact getLane_small _ 32 k (Nat.mod_lt _ (by norm_num)) hk
  · refine ⟨fpu_set_h_eq fr x, fun k hk => ?_⟩
    rw [fpu_set_h_eq fr x]
    exact getLane_small _ 16 k (Nat.mod_lt _ (by norm_num)) hk
  · refine ⟨fpu_set_b_eq fr x, fun k hk => ?_⟩
    rw [fpu_set_b_eq fr x]
    exact getLane_small _ 8 k (Nat.mod_lt _ (by norm_num)) hk

/-- Witness for C10 at a concrete register value, lane 1, value 42. -/
theorem register_lane_setters_witness :
    getLane ((VectorRegister.mk 123456789).set_d 1 42 (by norm_num)).v 64 1 =
        42 % 2 ^ 64 ∧
      getLane ((VectorRegister.mk 123456789).set_d 1 42 (by norm_num)).v 64 0 =
        getLane (VectorRegister.mk 123456789).v 64 0 ∧
      ((FpuRegister.mk 987654321).set_d 42).q = 42 % 2 ^ 64 ∧
      getLane ((FpuRegister.mk 987654321).set_d 42).q 64 1 = 0 := by
  have h := register_lane_setters (VectorRegister.mk 123456789)
    (FpuRegister.mk 987654321) 1 42
  exact ⟨(h.1 (by norm_num)).1, (h.1 (by norm_num)).2 0 (by norm_num),
    h.2.2.2.2.1.1, h.2.2.2.2.1.2 1 (by norm_num)⟩
